import Mathlib

/-!
Verification of the inference cost calculator.

The development shallowly embeds the calculation core of
`calculator_app.py`:

* `calculate_optimal_server_cost_dp` — the dynamic-programming server
  bundle optimizer.  Python's `float('inf')` cost is modelled as `none`
  in an `Option ℕ`, a finite cost `c` as `some c`.  The Python dict of
  server prices is modelled as an association list `List (ℕ × ℕ)` of
  (size, price) pairs; the Python code iterates over `sorted(keys)`,
  modelled by sorting the pairs by key.  The two parallel Python arrays
  `dp_cost` / `dp_config_breakdown` are modelled as one table
  `ℕ → Option (ℕ × List ℕ)` mapping an index to `none` (infinite cost)
  or `some (cost, breakdown)`; they are always updated together in the
  Python code.
* `get_compressa_license_cost` — the license tier lookup.  A Python
  `KeyError` on `license_tier_prices[8]` is modelled as `none`.
* the inline demand-estimator block computing `num_gpus_needed_exact`
  (lines 116–127), modelled as a function of the model throughput and
  the user count over `ℚ`.
-/

/-- One entry of the DP table: `none` is `float('inf')`, and
`some (c, bd)` is a reachable cost `c` with reconstruction list `bd`
(`dp_cost[i]` together with `dp_config_breakdown[i]`). -/
abbrev DPEntry := Option (ℕ × List ℕ)

/-- Point update of the DP table at index `i`. -/
def updAt (dp : ℕ → DPEntry) (i : ℕ) (v : DPEntry) : ℕ → DPEntry :=
  fun j => if j = i then v else dp j

/-- One iteration of the inner loop body of the Python DP, for target
index `i` and catalog entry `sp = (gpu_config_size, price)`:
if `i >= gpu_config_size` and `dp_cost[i - size]` is finite, the
candidate cost `dp_cost[i - size] + price` replaces `dp_cost[i]` when it
is strictly smaller (an infinite `dp_cost[i]` is always replaced), and
the breakdown is extended by `[size]`. -/
def dpStepEntry (i : ℕ) (dp : ℕ → DPEntry) (sp : ℕ × ℕ) : DPEntry :=
  if sp.1 ≤ i then
    match dp (i - sp.1), dp i with
    | some prev, some cur =>
        if prev.1 + sp.2 < cur.1 then some (prev.1 + sp.2, prev.2 ++ [sp.1])
        else some cur
    | some prev, none => some (prev.1 + sp.2, prev.2 ++ [sp.1])
    | none, cur => cur
  else dp i

/-- One inner-loop iteration, as the point update of the table at `i`
with the improved entry. -/
def dpStep (i : ℕ) (dp : ℕ → DPEntry) (sp : ℕ × ℕ) : ℕ → DPEntry :=
  updAt dp i (dpStepEntry i dp sp)

/-- The inner `for gpu_config_size in server_options` loop at index `i`. -/
def dpInner (l : List (ℕ × ℕ)) (i : ℕ) (dp : ℕ → DPEntry) : ℕ → DPEntry :=
  l.foldl (dpStep i) dp

/-- Initial DP table: `dp_cost[0] = 0` with empty breakdown, everything
else infinite. -/
def dpInit : ℕ → DPEntry :=
  fun j => if j = 0 then some (0, []) else none

/-- The outer `for i in range(1, num_gpus_needed + 1)` loop. -/
def runDP (l : List (ℕ × ℕ)) (n : ℕ) : ℕ → DPEntry :=
  (List.range n).foldl (fun dp k => dpInner l (k + 1) dp) dpInit

/-- The catalog iterated in ascending key order, as the Python
`server_options = sorted(server_prices_for_model.keys())` together with
the dict lookup of each price. -/
def sortedCatalog (prices : List (ℕ × ℕ)) : List (ℕ × ℕ) :=
  List.insertionSort (fun a b => a.1 ≤ b.1) prices

/-- The full DP table built for requirement `n` from a raw catalog. -/
def dpTable (prices : List (ℕ × ℕ)) (n : ℕ) : ℕ → DPEntry :=
  runDP (sortedCatalog prices) n

/-- Python `", ".join(parts)`. -/
def joinComma : List String → String
  | [] => ""
  | [x] => x
  | x :: y :: xs => x ++ ", " ++ joinComma (y :: xs)

/-- The human-readable breakdown string: group the reconstruction list
by size (`Counter`), iterate the (size, count) pairs in descending size
order (`sorted(..., reverse=True)`; sizes are distinct so the pair order
is the key order), keep counts `> 0`, and render
`f"{count} x сервер(а) на {gpu_size} GPU"` joined by `", "`. -/
def buildDesc (bd : List ℕ) : String :=
  joinComma ((List.insertionSort (fun a b => b ≤ a) bd.dedup).filterMap
    (fun s => if 0 < bd.count s then
        some (toString (bd.count s) ++ " x сервер(а) на " ++ toString s ++ " GPU")
      else none))

/-- `calculate_optimal_server_cost_dp` (lines 50–83): returns the pair
(final cost, configuration description). -/
def calculate_optimal_server_cost_dp (num_gpus_needed : ℤ)
    (server_prices_for_model : List (ℕ × ℕ)) : Option ℕ × String :=
  if num_gpus_needed ≤ 0 then (some 0, "Нет GPU")
  else
    match dpTable server_prices_for_model num_gpus_needed.toNat num_gpus_needed.toNat with
    | none => (none, "Невозможно собрать требуемую конфигурацию")
    | some (c, bd) =>
        if buildDesc bd = "" ∧ 0 < num_gpus_needed then
          (some c, "Ошибка при определении конфигурации")
        else if num_gpus_needed = 0 then (some c, "Нет GPU")
        else (some c, buildDesc bd)

/-- `SERVER_COSTS_CONFIGS["T-lite (8B, A100 40GB)"]`. -/
def tliteServerCosts : List (ℕ × ℕ) := [(1, 100000), (2, 180000), (4, 280000), (8, 500000)]

/-- `SERVER_COSTS_CONFIGS["T-pro (32B, A100 80GB)"]`. -/
def tproServerCosts : List (ℕ × ℕ) := [(1, 300000), (2, 600000), (4, 1200000), (8, 2500000)]

/-- `LICENSE_PRICES_PER_GPU_TIERS`. -/
def licenseTiers : List (ℕ × ℕ) := [(1, 150000), (2, 145000), (4, 140000), (8, 130000)]

/-- `get_compressa_license_cost` (lines 85–93): selects the per-license
price by tier and multiplies by the GPU count.  Every branch of the
Python `if`/`elif` chain evaluates `license_tier_prices[8]` (as the
eager `.get` default), so a table without key 8 raises `KeyError` for
any positive count, modelled as `none`. -/
def get_compressa_license_cost (num_gpus_exact : ℤ)
    (license_tier_prices : List (ℕ × ℕ)) : Option ℤ :=
  if num_gpus_exact ≤ 0 then some 0
  else
    match license_tier_prices.lookup 8 with
    | none => none
    | some t8 =>
        let price : ℕ :=
          if num_gpus_exact = 1 then (license_tier_prices.lookup 1).getD t8
          else if num_gpus_exact = 2 then (license_tier_prices.lookup 2).getD t8
          else if 3 ≤ num_gpus_exact ∧ num_gpus_exact ≤ 4 then
            (license_tier_prices.lookup 4).getD t8
          else if 5 ≤ num_gpus_exact then (license_tier_prices.lookup 8).getD t8
          else 0
        some ((price : ℤ) * num_gpus_exact)

/-- `OUTPUT_TOKENS_PER_REQUEST = 500`. -/
def OUTPUT_TOKENS_PER_REQUEST : ℚ := 500

/-- `MAX_LATENCY_S = 10`. -/
def MAX_LATENCY_S : ℚ := 10

/-- The demand estimator block computing `num_gpus_needed_exact`
(lines 116–127): requests per second one GPU can serve, total requests
per second needed, the ceiling division when the per-GPU rate is
positive (`0` otherwise), and the two clamping branches. -/
def num_gpus_needed_exact (gpu_output_tps : ℚ) (num_users : ℚ) : ℤ :=
  let rps_per_gpu_for_user_load := gpu_output_tps / OUTPUT_TOKENS_PER_REQUEST
  let total_rps_needed_for_user_load := num_users / MAX_LATENCY_S
  let n : ℤ :=
    if 0 < rps_per_gpu_for_user_load then
      ⌈total_rps_needed_for_user_load / rps_per_gpu_for_user_load⌉
    else 0
  if n = 0 ∧ 0 < total_rps_needed_for_user_load then 1
  else if total_rps_needed_for_user_load = 0 then 0
  else n

/-- Reconstruction invariant for one DP entry at index `i`: any finite
entry carries a breakdown summing to `i` whose elements are all catalog
sizes of `l`. -/
def InvAt (l : List (ℕ × ℕ)) (i : ℕ) (e : DPEntry) : Prop :=
  ∀ c bd, e = some (c, bd) → bd.sum = i ∧ ∀ s ∈ bd, ∃ p, (s, p) ∈ l

lemma updAt_self (dp : ℕ → DPEntry) (i : ℕ) (v : DPEntry) : updAt dp i v i = v := by
  simp [updAt]

lemma updAt_ne (dp : ℕ → DPEntry) (i : ℕ) (v : DPEntry) (j : ℕ) (h : j ≠ i) :
    updAt dp i v j = dp j := by
  simp [updAt, h]

lemma dpStep_ne (i : ℕ) (dp : ℕ → DPEntry) (sp : ℕ × ℕ) (j : ℕ) (h : j ≠ i) :
    dpStep i dp sp j = dp j :=
  updAt_ne dp i _ j h

lemma dpStep_self (i : ℕ) (dp : ℕ → DPEntry) (sp : ℕ × ℕ) :
    dpStep i dp sp i = dpStepEntry i dp sp :=
  updAt_self dp i _

lemma dpInner_ne (l : List (ℕ × ℕ)) (i : ℕ) (j : ℕ) (h : j ≠ i) :
    ∀ dp : ℕ → DPEntry, dpInner l i dp j = dp j := by
  induction l with
  | nil => intro dp; rfl
  | cons hd tl ih =>
    intro dp
    show dpInner tl i (dpStep i dp hd) j = dp j
    rw [ih (dpStep i dp hd), dpStep_ne i dp hd j h]

lemma dpStep_mono (i : ℕ) (dp : ℕ → DPEntry) (sp : ℕ × ℕ) (e : ℕ × List ℕ)
    (h : dp i = some e) :
    ∃ e' : ℕ × List ℕ, dpStep i dp sp i = some e' ∧ e'.1 ≤ e.1 := by
  rw [dpStep_self]
  unfold dpStepEntry
  split
  · split
    · rename_i prev cur hx hy
      rw [h] at hy
      injection hy with hy'
      subst hy'
      split
      · rename_i hlt
        exact ⟨_, rfl, by omega⟩
      · exact ⟨e, rfl, le_refl _⟩
    · rename_i prev hx hy
      rw [h] at hy
      cases hy
    · rename_i hx
      exact ⟨e, h, le_refl _⟩
  · exact ⟨e, h, le_refl _⟩

lemma dpInner_mono (l : List (ℕ × ℕ)) (i : ℕ) :
    ∀ (dp : ℕ → DPEntry) (e : ℕ × List ℕ), dp i = some e →
      ∃ e' : ℕ × List ℕ, dpInner l i dp i = some e' ∧ e'.1 ≤ e.1 := by
  induction l with
  | nil => intro dp e h; exact ⟨e, h, le_refl _⟩
  | cons hd tl ih =>
    intro dp e h
    obtain ⟨e1, he1, hle1⟩ := dpStep_mono i dp hd e h
    obtain ⟨e2, he2, hle2⟩ := ih (dpStep i dp hd) e1 he1
    exact ⟨e2, he2, le_trans hle2 hle1⟩

lemma dpStep_le_cand (i : ℕ) (dp : ℕ → DPEntry) (sp : ℕ × ℕ) (c : ℕ) (bd : List ℕ)
    (hsi : sp.1 ≤ i) (hdp : dp (i - sp.1) = some (c, bd)) :
    ∃ e : ℕ × List ℕ, dpStep i dp sp i = some e ∧ e.1 ≤ c + sp.2 := by
  rw [dpStep_self]
  unfold dpStepEntry
  rw [if_pos hsi]
  split
  · rename_i prev cur hx hy
    rw [hdp] at hx
    injection hx with hx'
    subst hx'
    split
    · rename_i hlt
      exact ⟨_, rfl, le_refl _⟩
    · rename_i hlt
      exact ⟨cur, rfl, by omega⟩
  · rename_i prev hx hy
    rw [hdp] at hx
    injection hx with hx'
    subst hx'
    exact ⟨_, rfl, le_refl _⟩
  · rename_i hx
    rw [hdp] at hx
    cases hx

lemma dpInner_le_cand (i s p : ℕ) (hs1 : 1 ≤ s) (hsi : s ≤ i) :
    ∀ (l : List (ℕ × ℕ)) (dp : ℕ → DPEntry) (c : ℕ) (bd : List ℕ),
      (s, p) ∈ l → dp (i - s) = some (c, bd) →
      ∃ e : ℕ × List ℕ, dpInner l i dp i = some e ∧ e.1 ≤ c + p := by
  intro l
  induction l with
  | nil => intro dp c bd hmem; cases hmem
  | cons hd tl ih =>
    intro dp c bd hmem hdp
    rcases List.mem_cons.mp hmem with heq | hmem'
    · subst heq
      obtain ⟨e1, he1, hle1⟩ := dpStep_le_cand i dp (s, p) c bd hsi hdp
      obtain ⟨e2, he2, hle2⟩ := dpInner_mono tl i (dpStep i dp (s, p)) e1 he1
      exact ⟨e2, he2, le_trans hle2 hle1⟩
    · have hne : i - s ≠ i := by omega
      have hdp' : (dpStep i dp hd) (i - s) = some (c, bd) := by
        rw [dpStep_ne i dp hd (i - s) hne]; exact hdp
      obtain ⟨e, he, hle⟩ := ih (dpStep i dp hd) c bd hmem' hdp'
      exact ⟨e, he, hle⟩

lemma dpStep_inv (L : List (ℕ × ℕ)) (i : ℕ) (dp : ℕ → DPEntry) (sp : ℕ × ℕ)
    (hsp : sp ∈ L) (hdp : ∀ j, InvAt L j (dp j)) :
    ∀ j, InvAt L j (dpStep i dp sp j) := by
  have hnew : ∀ prev : ℕ × List ℕ, sp.1 ≤ i → dp (i - sp.1) = some prev →
      InvAt L i (some (prev.1 + sp.2, prev.2 ++ [sp.1])) := by
    intro prev hsi hx c bd hbd
    injection hbd with hbd'
    injection hbd' with hc hb
    obtain ⟨hsum, hmem⟩ := hdp (i - sp.1) prev.1 prev.2 hx
    constructor
    · rw [← hb, List.sum_append, hsum]
      simp
      omega
    · intro s hs
      rw [← hb] at hs
      rcases List.mem_append.mp hs with hin | hin
      · exact hmem s hin
      · have hse : s = sp.1 := by simpa using hin
        subst hse
        exact ⟨sp.2, hsp⟩
  intro j
  by_cases hj : j = i
  · subst hj
    rw [dpStep_self]
    unfold dpStepEntry
    split
    · rename_i hsi
      split
      · rename_i prev cur hx hy
        split
        · exact hnew prev hsi hx
        · intro c bd hbd
          rw [← hy] at hbd
          exact hdp j c bd hbd
      · rename_i prev hx hy
        exact hnew prev hsi hx
      · rename_i hx
        exact hdp j
    · exact hdp j
  · rw [dpStep_ne i dp sp j hj]
    exact hdp j

lemma dpInner_inv (L : List (ℕ × ℕ)) (i : ℕ) :
    ∀ (l : List (ℕ × ℕ)) (dp : ℕ → DPEntry), (∀ sp ∈ l, sp ∈ L) →
      (∀ j, InvAt L j (dp j)) → ∀ j, InvAt L j (dpInner l i dp j) := by
  intro l
  induction l with
  | nil => intro dp _ hdp; exact hdp
  | cons hd tl ih =>
    intro dp hsub hdp
    show ∀ j, InvAt L j (dpInner tl i (dpStep i dp hd) j)
    exact ih (dpStep i dp hd) (fun sp hsp => hsub sp (List.mem_cons_of_mem hd hsp))
      (dpStep_inv L i dp hd (hsub hd (List.mem_cons_self hd tl)) hdp)

lemma runDP_succ (l : List (ℕ × ℕ)) (n : ℕ) :
    runDP l (n + 1) = dpInner l (n + 1) (runDP l n) := by
  unfold runDP
  rw [List.range_succ, List.foldl_append]
  rfl

lemma dpInit_inv (L : List (ℕ × ℕ)) : ∀ j, InvAt L j (dpInit j) := by
  intro j c bd hbd
  unfold dpInit at hbd
  split at hbd
  · rename_i hj
    injection hbd with h
    injection h with hc hb
    subst hj
    constructor
    · rw [← hb]; rfl
    · intro s hs
      rw [← hb] at hs
      cases hs
  · cases hbd

lemma runDP_inv (l : List (ℕ × ℕ)) (n : ℕ) : ∀ j, InvAt l j (runDP l n j) := by
  induction n with
  | zero => exact dpInit_inv l
  | succ m ih =>
    rw [runDP_succ]
    exact dpInner_inv l (m + 1) l _ (fun sp h => h) ih

lemma runDP_some (l : List (ℕ × ℕ)) (p1 : ℕ) (h1 : (1, p1) ∈ l) :
    ∀ n i, i ≤ n → ∃ e : ℕ × List ℕ, runDP l n i = some e := by
  intro n
  induction n with
  | zero =>
    intro i hi
    have hz : i = 0 := by omega
    subst hz
    exact ⟨(0, []), rfl⟩
  | succ m ih =>
    intro i hi
    rcases Nat.lt_or_ge i (m + 1) with hlt | hge
    · obtain ⟨e, he⟩ := ih i (by omega)
      rw [runDP_succ, dpInner_ne l (m + 1) i (by omega)]
      exact ⟨e, he⟩
    · have hieq : i = m + 1 := by omega
      subst hieq
      obtain ⟨e, he⟩ := ih m (le_refl m)
      rw [runDP_succ]
      obtain ⟨e', he', _⟩ :=
        dpInner_le_cand (m + 1) 1 p1 (le_refl 1) (by omega) l (runDP l m) e.1 e.2 h1 he
      exact ⟨e', he'⟩

lemma calc_fst_of_pos (gn : ℤ) (prices : List (ℕ × ℕ)) (h : 0 < gn) :
    (calculate_optimal_server_cost_dp gn prices).1 =
      Option.map Prod.fst (dpTable prices gn.toNat gn.toNat) := by
  unfold calculate_optimal_server_cost_dp
  rw [if_neg (by omega)]
  cases hx : dpTable prices gn.toNat gn.toNat with
  | none => rfl
  | some e =>
    obtain ⟨c, bd⟩ := e
    show (if buildDesc bd = "" ∧ 0 < gn then ((some c : Option ℕ), "Ошибка при определении конфигурации")
      else if gn = 0 then ((some c : Option ℕ), "Нет GPU")
      else ((some c : Option ℕ), buildDesc bd)).1 = some c
    split
    · rfl
    · split
      · rfl
      · rfl

lemma calc_fst_of_nonneg (gn : ℤ) (prices : List (ℕ × ℕ)) (h : 0 ≤ gn) :
    (calculate_optimal_server_cost_dp gn prices).1 =
      Option.map Prod.fst (dpTable prices gn.toNat gn.toNat) := by
  rcases eq_or_lt_of_le h with heq | hpos
  · rw [← heq]
    unfold calculate_optimal_server_cost_dp
    rw [if_pos (by omega)]
    rfl
  · exact calc_fst_of_pos gn prices hpos

/-- Claim C7: for `requiredGpus = 0` and any catalog, the optimizer
returns cost 0 with the "Нет GPU" (no GPUs needed) description and no
chosen SKUs. -/
theorem zero_requirement_zero_cost (prices : List (ℕ × ℕ)) :
    calculate_optimal_server_cost_dp 0 prices = (some 0, "Нет GPU") := by
  unfold calculate_optimal_server_cost_dp
  rw [if_pos (by omega)]

/-- Claim C4, counterexample: the code does not reject a negative
requirement; at `requiredGpus = -1` it silently returns the valid
result cost 0 with the "Нет GPU" description, exactly the clamping the
claim rules out. -/
theorem negative_requirement_not_rejected :
    calculate_optimal_server_cost_dp (-1) tliteServerCosts = (some 0, "Нет GPU") := by
  decide

/-- Claim C4, amended: for every strictly negative `requiredGpus` the
optimizer silently treats the input like zero, returning cost 0 and the
"Нет GPU" description; no invalid-argument rejection occurs. -/
theorem negative_requirement_clamped_to_zero (gn : ℤ) (h : gn < 0)
    (prices : List (ℕ × ℕ)) :
    calculate_optimal_server_cost_dp gn prices = (some 0, "Нет GPU") := by
  unfold calculate_optimal_server_cost_dp
  rw [if_pos (by omega)]

theorem negative_requirement_clamped_to_zero_witness :
    (-2 : ℤ) < 0 ∧
      calculate_optimal_server_cost_dp (-2) tliteServerCosts = (some 0, "Нет GPU") :=
  ⟨by decide, negative_requirement_clamped_to_zero (-2) (by decide) tliteServerCosts⟩

/-- Claim C2: for every `requiredGpus ≥ 0` and any catalog containing a
size-1 SKU, the optimizer returns a finite cost, and for positive
requirements the reconstructed breakdown sums to exactly the
requirement. -/
theorem dp_finite_cost_and_exact_cover (gn : ℤ) (prices : List (ℕ × ℕ)) (p1 : ℕ)
    (hmem : (1, p1) ∈ prices) (h0 : 0 ≤ gn) :
    (∃ c : ℕ, (calculate_optimal_server_cost_dp gn prices).1 = some c) ∧
    (0 < gn → ∃ c : ℕ, ∃ bd : List ℕ,
      dpTable prices gn.toNat gn.toNat = some (c, bd) ∧ (bd.sum : ℤ) = gn) := by
  have hmem' : (1, p1) ∈ sortedCatalog prices := by
    unfold sortedCatalog
    rw [List.Perm.mem_iff (List.perm_insertionSort _ _)]
    exact hmem
  rcases eq_or_lt_of_le h0 with heq | hpos
  · constructor
    · refine ⟨0, ?_⟩
      rw [← heq]
      unfold calculate_optimal_server_cost_dp
      rw [if_pos (by omega)]
    · intro hc
      omega
  · obtain ⟨e, he⟩ :=
      runDP_some (sortedCatalog prices) p1 hmem' gn.toNat gn.toNat (le_refl _)
    obtain ⟨hsum, _⟩ := runDP_inv (sortedCatalog prices) gn.toNat gn.toNat e.1 e.2 he
    constructor
    · refine ⟨e.1, ?_⟩
      rw [calc_fst_of_pos gn prices hpos]
      unfold dpTable
      rw [he]
      rfl
    · intro _
      refine ⟨e.1, e.2, ?_, ?_⟩
      · unfold dpTable
        exact he
      · rw [hsum]
        omega

theorem dp_finite_cost_and_exact_cover_witness :
    (1, 100000) ∈ tliteServerCosts ∧ (0 : ℤ) ≤ 5 ∧
    ((∃ c : ℕ, (calculate_optimal_server_cost_dp 5 tliteServerCosts).1 = some c) ∧
     (0 < (5 : ℤ) → ∃ c : ℕ, ∃ bd : List ℕ,
       dpTable tliteServerCosts (5 : ℤ).toNat (5 : ℤ).toNat = some (c, bd) ∧
       (bd.sum : ℤ) = 5)) :=
  ⟨by decide, by decide,
    dp_finite_cost_and_exact_cover 5 tliteServerCosts 100000 (by decide) (by decide)⟩

/-- Claim C3, counterexample: the DP cost is not monotone in the
requirement for the fixed T-lite catalog: an exact cover of 7 GPUs
costs 560000 while 8 GPUs cost only 500000. -/
theorem dp_cost_monotonicity_fails :
    ¬ ∀ m n : ℤ, 0 ≤ m → m ≤ n → ∀ cm cn : ℕ,
        (calculate_optimal_server_cost_dp m tliteServerCosts).1 = some cm →
        (calculate_optimal_server_cost_dp n tliteServerCosts).1 = some cn →
        cm ≤ cn := by
  intro h
  have h78 := h 7 8 (by decide) (by decide) 560000 500000 (by decide) (by decide)
  omega

/-- Claim C3, amended: cost(requiredGpus) is not non-decreasing, but
for any catalog containing a size-1 SKU at price `p1` the cost varies
by at most `p1` upward from one requirement to the next:
cost(n) ≤ cost(n-1) + p1 for every n ≥ 1 (both costs finite). -/
theorem dp_cost_increment_bound (prices : List (ℕ × ℕ)) (p1 : ℕ)
    (hmem : (1, p1) ∈ prices) (n : ℕ) (hn : 1 ≤ n) :
    ∃ c c' : ℕ,
      (calculate_optimal_server_cost_dp ((n : ℤ) - 1) prices).1 = some c ∧
      (calculate_optimal_server_cost_dp (n : ℤ) prices).1 = some c' ∧
      c' ≤ c + p1 := by
  have hmem' : (1, p1) ∈ sortedCatalog prices := by
    unfold sortedCatalog
    rw [List.Perm.mem_iff (List.perm_insertionSort _ _)]
    exact hmem
  obtain ⟨m, rfl⟩ : ∃ m, n = m + 1 := ⟨n - 1, by omega⟩
  obtain ⟨e, he⟩ := runDP_some (sortedCatalog prices) p1 hmem' m m (le_refl _)
  obtain ⟨e', he', hle⟩ :=
    dpInner_le_cand (m + 1) 1 p1 (le_refl 1) (by omega) (sortedCatalog prices)
      (runDP (sortedCatalog prices) m) e.1 e.2 hmem' he
  refine ⟨e.1, e'.1, ?_, ?_, ?_⟩
  · rw [show ((↑(m + 1) : ℤ) - 1) = (m : ℤ) by push_cast; ring]
    rw [calc_fst_of_nonneg (m : ℤ) prices (by omega)]
    unfold dpTable
    rw [show ((m : ℤ)).toNat = m by omega, he]
    rfl
  · rw [calc_fst_of_nonneg ((m + 1 : ℕ) : ℤ) prices (by omega)]
    unfold dpTable
    rw [show (((m + 1 : ℕ) : ℤ)).toNat = m + 1 by omega, runDP_succ, he']
    rfl
  · exact hle

theorem dp_cost_increment_bound_witness :
    (1, 100000) ∈ tliteServerCosts ∧ 1 ≤ (8 : ℕ) ∧
    (∃ c c' : ℕ,
      (calculate_optimal_server_cost_dp (((8 : ℕ) : ℤ) - 1) tliteServerCosts).1 = some c ∧
      (calculate_optimal_server_cost_dp ((8 : ℕ) : ℤ) tliteServerCosts).1 = some c' ∧
      c' ≤ c + 100000) :=
  ⟨by decide, by decide,
    dp_cost_increment_bound tliteServerCosts 100000 (by decide) 8 (by decide)⟩

/-- Claim C8: for a positive requirement that no multiset of catalog
sizes can cover exactly, the optimizer returns the infinite-cost
sentinel (`none`, with the "Невозможно собрать" description), which is
distinct from cost 0 and from every finite numeric cost. -/
theorem infeasible_catalog_reports_sentinel (gn : ℤ) (prices : List (ℕ × ℕ))
    (hpos : 0 < gn)
    (hnc : ∀ bd : List ℕ, (∀ s ∈ bd, ∃ p, (s, p) ∈ prices) → (bd.sum : ℤ) ≠ gn) :
    calculate_optimal_server_cost_dp gn prices =
      (none, "Невозможно собрать требуемую конфигурацию") ∧
    ∀ c : ℕ, (calculate_optimal_server_cost_dp gn prices).1 ≠ some c := by
  have hdp : dpTable prices gn.toNat gn.toNat = none := by
    cases hx : dpTable prices gn.toNat gn.toNat with
    | none => rfl
    | some e =>
      obtain ⟨hsum, hmemb⟩ :=
        runDP_inv (sortedCatalog prices) gn.toNat gn.toNat e.1 e.2 hx
      exfalso
      refine hnc e.2 ?_ ?_
      · intro s hs
        obtain ⟨p, hp⟩ := hmemb s hs
        refine ⟨p, ?_⟩
        unfold sortedCatalog at hp
        exact (List.Perm.mem_iff (List.perm_insertionSort _ _)).mp hp
      · rw [hsum]
        omega
  constructor
  · unfold calculate_optimal_server_cost_dp
    rw [if_neg (by omega), hdp]
  · intro c
    rw [calc_fst_of_pos gn prices hpos, hdp]
    simp

lemma sum_of_all_two (bd : List ℕ) (h : ∀ s ∈ bd, s = 2) : bd.sum % 2 = 0 := by
  induction bd with
  | nil => rfl
  | cons x xs ih =>
    have hx := h x (List.mem_cons_self x xs)
    have hxs := ih (fun s hs => h s (List.mem_cons_of_mem x hs))
    subst hx
    rw [List.sum_cons]
    omega

theorem infeasible_catalog_reports_sentinel_witness :
    (0 : ℤ) < 3 ∧
    (calculate_optimal_server_cost_dp 3 [(2, 10)] =
        (none, "Невозможно собрать требуемую конфигурацию") ∧
      ∀ c : ℕ, (calculate_optimal_server_cost_dp 3 [(2, 10)]).1 ≠ some c) :=
  ⟨by decide, infeasible_catalog_reports_sentinel 3 [(2, 10)] (by decide)
    (by
      intro bd hmem
      have h2 : ∀ s ∈ bd, s = 2 := by
        intro s hs
        obtain ⟨p, hp⟩ := hmem s hs
        simp at hp
        exact hp.1
      have hmod := sum_of_all_two bd h2
      omega)⟩

/-- Claim C9: for every positive total GPU count `n` and a tier table
defining prices at keys 1, 2, 4 and 8, the license cost is
`p(n) * n` where `p(1) = tier[1]`, `p(2) = tier[2]`, `p(n) = tier[4]`
for `3 ≤ n ≤ 4` and `p(n) = tier[8]` for `n ≥ 5`. -/
theorem license_cost_breakpoints (n : ℤ) (hn : 0 < n) (tiers : List (ℕ × ℕ))
    (t1 t2 t4 t8 : ℕ)
    (h1 : tiers.lookup 1 = some t1) (h2 : tiers.lookup 2 = some t2)
    (h4 : tiers.lookup 4 = some t4) (h8 : tiers.lookup 8 = some t8) :
    get_compressa_license_cost n tiers =
      some (((if n = 1 then t1 else if n = 2 then t2
        else if n ≤ 4 then t4 else t8 : ℕ) : ℤ) * n) := by
  unfold get_compressa_license_cost
  rw [if_neg (by omega), h8]
  simp only [h1, h2, h4, Option.getD_some]
  by_cases e1 : n = 1
  · simp [e1]
  · by_cases e2 : n = 2
    · simp [e1, e2]
    · by_cases e34 : 3 ≤ n ∧ n ≤ 4
      · rw [if_neg e1, if_neg e2, if_pos e34, if_neg e1, if_neg e2, if_pos (by omega)]
      · have h5 : 5 ≤ n := by omega
        rw [if_neg e1, if_neg e2, if_neg e34, if_pos h5, if_neg e1, if_neg e2,
          if_neg (by omega)]

theorem license_cost_breakpoints_witness :
    (0 : ℤ) < 7 ∧ licenseTiers.lookup 1 = some 150000 ∧
    licenseTiers.lookup 2 = some 145000 ∧ licenseTiers.lookup 4 = some 140000 ∧
    licenseTiers.lookup 8 = some 130000 ∧
    get_compressa_license_cost 7 licenseTiers = some (130000 * 7) := by
  refine ⟨by decide, by decide, by decide, by decide, by decide, ?_⟩
  have h := license_cost_breakpoints 7 (by decide) licenseTiers 150000 145000 140000
    130000 (by decide) (by decide) (by decide) (by decide)
  rw [h]
  norm_num

/-- Claim C5, counterexample: with zero model throughput and 50
concurrent users, the computation does not fail at all; it silently
produces a GPU count of 1 (the else branch yields 0, which the clamp
then raises to 1). -/
theorem zero_throughput_no_failure : num_gpus_needed_exact 0 50 = 1 := by
  norm_num [num_gpus_needed_exact, OUTPUT_TOKENS_PER_REQUEST, MAX_LATENCY_S]

/-- Claim C5, amended: for non-positive model throughput and strictly
positive load, the code never raises an error: the requests-per-GPU
guard fails, the requirement is set to 0, and the clamp silently turns
it into 1. -/
theorem nonpositive_throughput_clamped_to_one (tps users : ℚ)
    (htps : tps ≤ 0) (husers : 0 < users) :
    num_gpus_needed_exact tps users = 1 := by
  have hrps : ¬ 0 < tps / OUTPUT_TOKENS_PER_REQUEST := by
    rw [not_lt]
    apply div_nonpos_of_nonpos_of_nonneg htps
    norm_num [OUTPUT_TOKENS_PER_REQUEST]
  have htot : 0 < users / MAX_LATENCY_S := by
    unfold MAX_LATENCY_S
    positivity
  simp only [num_gpus_needed_exact]
  rw [if_neg hrps, if_pos ⟨rfl, htot⟩]

theorem nonpositive_throughput_clamped_to_one_witness :
    (-3 : ℚ) ≤ 0 ∧ (0 : ℚ) < 20 ∧ num_gpus_needed_exact (-3) 20 = 1 :=
  ⟨by norm_num, by norm_num,
    nonpositive_throughput_clamped_to_one (-3) 20 (by norm_num) (by norm_num)⟩

/-- Claim C6: for positive throughput the demand estimator returns 0 at
zero load, and at positive load it returns exactly
`⌈(users / maxLatency) / (tps / outputTokens)⌉`, which is at least 1;
in the concrete scenario (5727 tok/s, 500 tok/request, 10 s latency,
50 users) the result is 1. -/
theorem demand_estimator_spec (tps users : ℚ) (htps : 0 < tps) (husers : 0 ≤ users) :
    (users = 0 → num_gpus_needed_exact tps users = 0) ∧
    (0 < users →
      num_gpus_needed_exact tps users =
        ⌈(users / MAX_LATENCY_S) / (tps / OUTPUT_TOKENS_PER_REQUEST)⌉ ∧
      1 ≤ num_gpus_needed_exact tps users) ∧
    num_gpus_needed_exact 5727 50 = 1 := by
  have hrps : 0 < tps / OUTPUT_TOKENS_PER_REQUEST := by
    unfold OUTPUT_TOKENS_PER_REQUEST
    positivity
  refine ⟨?_, ?_, ?_⟩
  · intro h0
    subst h0
    simp [num_gpus_needed_exact, hrps]
  · intro hu
    have htot : 0 < users / MAX_LATENCY_S := by
      unfold MAX_LATENCY_S
      positivity
    have hceil : 0 < ⌈(users / MAX_LATENCY_S) / (tps / OUTPUT_TOKENS_PER_REQUEST)⌉ :=
      Int.ceil_pos.mpr (div_pos htot hrps)
    simp only [num_gpus_needed_exact]
    rw [if_pos hrps]
    rw [if_neg (by rintro ⟨hz, -⟩; omega)]
    rw [if_neg (ne_of_gt htot)]
    exact ⟨rfl, by omega⟩
  · norm_num [num_gpus_needed_exact, OUTPUT_TOKENS_PER_REQUEST, MAX_LATENCY_S,
      Int.ceil_eq_iff]

theorem demand_estimator_spec_witness :
    (0 : ℚ) < 5727 ∧ (0 : ℚ) ≤ 50 ∧
    (((50 : ℚ) = 0 → num_gpus_needed_exact 5727 50 = 0) ∧
     (0 < (50 : ℚ) →
       num_gpus_needed_exact 5727 50 =
         ⌈((50 : ℚ) / MAX_LATENCY_S) / ((5727 : ℚ) / OUTPUT_TOKENS_PER_REQUEST)⌉ ∧
       1 ≤ num_gpus_needed_exact 5727 50) ∧
     num_gpus_needed_exact 5727 50 = 1) :=
  ⟨by norm_num, by norm_num, demand_estimator_spec 5727 50 (by norm_num) (by norm_num)⟩

lemma joinComma_last_eq (items : List String)
    (hall : ∀ it ∈ items, ∃ pre : String, it = pre ++ " GPU") :
    items ≠ [] → (joinComma items).data.getLast? = some 'U' := by
  induction items with
  | nil => intro h; exact absurd rfl h
  | cons x xs ih =>
    intro _
    cases xs with
    | nil =>
      obtain ⟨pre, hpre⟩ := hall x (List.mem_cons_self x [])
      show x.data.getLast? = some 'U'
      rw [hpre, String.data_append,
        List.getLast?_append_of_ne_nil _ (by decide : (" GPU").data ≠ [])]
      decide
    | cons y ys =>
      have hys := ih (fun it hit => hall it (List.mem_cons_of_mem x hit))
        (List.cons_ne_nil y ys)
      have hne : (joinComma (y :: ys)).data ≠ [] := by
        intro hnil
        rw [hnil] at hys
        exact absurd hys (by decide)
      show (x ++ ", " ++ joinComma (y :: ys)).data.getLast? = some 'U'
      rw [String.data_append, List.getLast?_append_of_ne_nil _ hne]
      exact hys

lemma buildDesc_items_suffix (bd : List ℕ) :
    ∀ it ∈ (List.insertionSort (fun a b => b ≤ a) bd.dedup).filterMap
      (fun s => if 0 < bd.count s then
          some (toString (bd.count s) ++ " x сервер(а) на " ++ toString s ++ " GPU")
        else none),
      ∃ pre : String, it = pre ++ " GPU" := by
  intro it hit
  obtain ⟨s, hs, hf⟩ := List.mem_filterMap.mp hit
  by_cases hc : 0 < bd.count s
  · rw [if_pos hc] at hf
    injection hf with hf'
    exact ⟨toString (bd.count s) ++ " x сервер(а) на " ++ toString s, hf'.symm⟩
  · rw [if_neg hc] at hf
    cases hf

lemma buildDesc_last (bd : List ℕ) (hbd : bd ≠ []) :
    (buildDesc bd).data.getLast? = some 'U' := by
  unfold buildDesc
  apply joinComma_last_eq _ (buildDesc_items_suffix bd)
  obtain ⟨s, hs⟩ := List.exists_mem_of_ne_nil bd hbd
  have hss : s ∈ List.insertionSort (fun a b => b ≤ a) bd.dedup := by
    rw [List.Perm.mem_iff (List.perm_insertionSort _ _)]
    exact List.mem_dedup.mpr hs
  have hcount : 0 < bd.count s := List.count_pos_iff.mpr hs
  exact List.ne_nil_of_mem
    (List.mem_filterMap.mpr ⟨s, hss, by rw [if_pos hcount]⟩)

lemma buildDesc_ne_empty (bd : List ℕ) (hbd : bd ≠ []) : buildDesc bd ≠ "" := by
  intro h
  have hl := buildDesc_last bd hbd
  rw [h] at hl
  exact absurd hl (by decide)

lemma buildDesc_ne_error (bd : List ℕ) (hbd : bd ≠ []) :
    buildDesc bd ≠ "Ошибка при определении конфигурации" := by
  intro h
  have hl := buildDesc_last bd hbd
  rw [h] at hl
  exact absurd hl (by decide)

lemma calc_snd_of_some (gn : ℤ) (prices : List (ℕ × ℕ)) (c : ℕ) (bd : List ℕ)
    (hpos : 0 < gn) (hdp : dpTable prices gn.toNat gn.toNat = some (c, bd))
    (hne : buildDesc bd ≠ "") :
    (calculate_optimal_server_cost_dp gn prices).2 = buildDesc bd := by
  unfold calculate_optimal_server_cost_dp
  rw [if_neg (by omega), hdp]
  show (if buildDesc bd = "" ∧ 0 < gn then
      ((some c : Option ℕ), "Ошибка при определении конфигурации")
    else if gn = 0 then ((some c : Option ℕ), "Нет GPU")
    else ((some c : Option ℕ), buildDesc bd)).2 = buildDesc bd
  rw [if_neg (by rintro ⟨h1, -⟩; exact hne h1), if_neg (by omega)]

/-- Claim C10: for every positive requirement and every catalog with a
size-1 SKU, the reconstructed breakdown is non-empty, so the
description is the non-empty rendered breakdown and never the internal
"Ошибка при определении конфигурации" error string: that branch is
unreachable under this precondition. -/
theorem dp_error_branch_unreachable (gn : ℤ) (prices : List (ℕ × ℕ)) (p1 : ℕ)
    (hmem : (1, p1) ∈ prices) (hpos : 0 < gn) :
    ∃ c : ℕ, ∃ bd : List ℕ,
      dpTable prices gn.toNat gn.toNat = some (c, bd) ∧ bd ≠ [] ∧
      buildDesc bd ≠ "" ∧
      (calculate_optimal_server_cost_dp gn prices).2 = buildDesc bd ∧
      (calculate_optimal_server_cost_dp gn prices).2 ≠
        "Ошибка при определении конфигурации" := by
  have hmem' : (1, p1) ∈ sortedCatalog prices := by
    unfold sortedCatalog
    rw [List.Perm.mem_iff (List.perm_insertionSort _ _)]
    exact hmem
  obtain ⟨e, he⟩ :=
    runDP_some (sortedCatalog prices) p1 hmem' gn.toNat gn.toNat (le_refl _)
  obtain ⟨hsum, _⟩ := runDP_inv (sortedCatalog prices) gn.toNat gn.toNat e.1 e.2 he
  have hbd : e.2 ≠ [] := by
    intro hnil
    rw [hnil] at hsum
    have hz : (0 : ℕ) = gn.toNat := hsum
    omega
  have hne := buildDesc_ne_empty e.2 hbd
  have herr := buildDesc_ne_error e.2 hbd
  have hsnd := calc_snd_of_some gn prices e.1 e.2 hpos he hne
  refine ⟨e.1, e.2, he, hbd, hne, hsnd, ?_⟩
  rw [hsnd]
  exact herr

theorem dp_error_branch_unreachable_witness :
    (1, 100000) ∈ tliteServerCosts ∧ (0 : ℤ) < 5 ∧
    (∃ c : ℕ, ∃ bd : List ℕ,
      dpTable tliteServerCosts (5 : ℤ).toNat (5 : ℤ).toNat = some (c, bd) ∧
      bd ≠ [] ∧ buildDesc bd ≠ "" ∧
      (calculate_optimal_server_cost_dp 5 tliteServerCosts).2 = buildDesc bd ∧
      (calculate_optimal_server_cost_dp 5 tliteServerCosts).2 ≠
        "Ошибка при определении конфигурации") :=
  ⟨by decide, by decide,
    dp_error_branch_unreachable 5 tliteServerCosts 100000 (by decide) (by decide)⟩

lemma combo_min_of_bounded (n m : ℕ)
    (h : ∀ c1 ≤ n, ∀ c2 ≤ n / 2, ∀ c4 ≤ n / 4, ∀ c8 ≤ n / 8,
        c1 + 2 * c2 + 4 * c4 + 8 * c8 = n →
        m ≤ c1 * 100000 + c2 * 180000 + c4 * 280000 + c8 * 500000) :
    ∀ c1 c2 c4 c8 : ℕ, c1 + 2 * c2 + 4 * c4 + 8 * c8 = n →
      m ≤ c1 * 100000 + c2 * 180000 + c4 * 280000 + c8 * 500000 := by
  intro c1 c2 c4 c8 hsum
  exact h c1 (by omega) c2 (by omega) c4 (by omega) c8 (by omega) hsum

/-- Claim C1: for every requirement between 1 and 12 and the fixed
T-lite catalog, the DP cost equals the minimum of
`c1*100000 + c2*180000 + c4*280000 + c8*500000` over all non-negative
integer counts with `c1 + 2*c2 + 4*c4 + 8*c8` equal to the requirement:
some exact assignment achieves the DP cost, and the DP cost is a lower
bound on the cost of every exact assignment. -/
theorem dp_cost_equals_brute_force_minimum (n : ℕ) (h1 : 0 < n) (h2 : n ≤ 12) :
    ∃ m : ℕ, (calculate_optimal_server_cost_dp (n : ℤ) tliteServerCosts).1 = some m ∧
      (∃ c1 c2 c4 c8 : ℕ, c1 + 2 * c2 + 4 * c4 + 8 * c8 = n ∧
        c1 * 100000 + c2 * 180000 + c4 * 280000 + c8 * 500000 = m) ∧
      (∀ c1 c2 c4 c8 : ℕ, c1 + 2 * c2 + 4 * c4 + 8 * c8 = n →
        m ≤ c1 * 100000 + c2 * 180000 + c4 * 280000 + c8 * 500000) := by
  interval_cases n
  · exact ⟨100000, by decide, ⟨1, 0, 0, 0, by decide, by decide⟩,
      combo_min_of_bounded 1 100000 (by decide)⟩
  · exact ⟨180000, by decide, ⟨0, 1, 0, 0, by decide, by decide⟩,
      combo_min_of_bounded 2 180000 (by decide)⟩
  · exact ⟨280000, by decide, ⟨1, 1, 0, 0, by decide, by decide⟩,
      combo_min_of_bounded 3 280000 (by decide)⟩
  · exact ⟨280000, by decide, ⟨0, 0, 1, 0, by decide, by decide⟩,
      combo_min_of_bounded 4 280000 (by decide)⟩
  · exact ⟨380000, by decide, ⟨1, 0, 1, 0, by decide, by decide⟩,
      combo_min_of_bounded 5 380000 (by decide)⟩
  · exact ⟨460000, by decide, ⟨0, 1, 1, 0, by decide, by decide⟩,
      combo_min_of_bounded 6 460000 (by decide)⟩
  · exact ⟨560000, by decide, ⟨1, 1, 1, 0, by decide, by decide⟩,
      combo_min_of_bounded 7 560000 (by decide)⟩
  · exact ⟨500000, by decide, ⟨0, 0, 0, 1, by decide, by decide⟩,
      combo_min_of_bounded 8 500000 (by decide)⟩
  · exact ⟨600000, by decide, ⟨1, 0, 0, 1, by decide, by decide⟩,
      combo_min_of_bounded 9 600000 (by decide)⟩
  · exact ⟨680000, by decide, ⟨0, 1, 0, 1, by decide, by decide⟩,
      combo_min_of_bounded 10 680000 (by decide)⟩
  · exact ⟨780000, by decide, ⟨1, 1, 0, 1, by decide, by decide⟩,
      combo_min_of_bounded 11 780000 (by decide)⟩
  · exact ⟨780000, by decide, ⟨0, 0, 1, 1, by decide, by decide⟩,
      combo_min_of_bounded 12 780000 (by decide)⟩

theorem dp_cost_equals_brute_force_minimum_witness :
    0 < 5 ∧ 5 ≤ 12 ∧
    (∃ m : ℕ,
      (calculate_optimal_server_cost_dp ((5 : ℕ) : ℤ) tliteServerCosts).1 = some m ∧
      (∃ c1 c2 c4 c8 : ℕ, c1 + 2 * c2 + 4 * c4 + 8 * c8 = 5 ∧
        c1 * 100000 + c2 * 180000 + c4 * 280000 + c8 * 500000 = m) ∧
      (∀ c1 c2 c4 c8 : ℕ, c1 + 2 * c2 + 4 * c4 + 8 * c8 = 5 →
        m ≤ c1 * 100000 + c2 * 180000 + c4 * 280000 + c8 * 500000)) :=
  ⟨by decide, by decide, dp_cost_equals_brute_force_minimum 5 (by decide) (by decide)⟩
